import Mathlib

/-!
Shallow embedding of the clientelle analysis ingestion pipeline:
the `process-ai-analysis` edge function (credential selection, LLM call
plumbing, extraction parsing, graph materialization), the `upload-data`
edge function (both the validated handler and the earlier draft that is
still part of the repository), and the authenticated upload route.
JavaScript truthiness on the string-valued fields involved is modelled
explicitly; storage and LLM outcomes are supplied by explicit
environment records, and externally visible writes are collected in an
event trace.
-/

namespace Clientelle

/-- JavaScript truthiness on an optional string: `undefined`/`null` and the
empty string are falsy; `x || null` and guards like `if (!x)` use this. -/
def truthyOpt : Option String → Option String
  | none => none
  | some s => if s = "" then none else some s

/-- Boolean form of `truthyOpt`, for guards such as `if (!raw_data_id)`. -/
def jsTruthy (o : Option String) : Bool :=
  (truthyOpt o).isSome

/-- JavaScript `x || d` for an optional string `x` and string default `d`. -/
def jsOr (o : Option String) (d : String) : String :=
  match truthyOpt o with
  | some s => s
  | none => d

/-- One field of the parsed LLM JSON object: absent, present but not an
array (the `Array.isArray` check fails), or an array of entries. -/
inductive JField (α : Type) where
  | absent : JField α
  | notList : JField α
  | list (xs : List α) : JField α
deriving DecidableEq

/-- One entry of the extraction result's `quotes` array. `id` is the
extraction-local temporary id, stringified as a JavaScript object key. -/
structure QuoteEntry where
  id : Option String
  text : String
  start_index : Option Int
  end_index : Option Int
deriving DecidableEq

/-- One entry of the extraction result's `nodes` array. -/
structure NodeEntry where
  id : Option String
  type : String
  label : String
  description : String
deriving DecidableEq

/-- One entry of the extraction result's `edges` array; the node
references are extraction-local temporary ids. -/
structure EdgeEntry where
  from_node_id : String
  to_node_id : String
  type : String
  description : String
deriving DecidableEq

/-- One entry of the extraction result's `quote_node_links` array. -/
structure LinkEntry where
  quote_id : String
  node_id : String
  type : String
deriving DecidableEq

/-- The parsed LLM response (`analysisResult` in the source). -/
structure ExtractionResult where
  quotes : JField QuoteEntry
  nodes : JField NodeEntry
  edges : JField EdgeEntry
  quote_node_links : JField LinkEntry
deriving DecidableEq

/-- Row submitted to the `quotes` table by the materializer. -/
structure QuoteRow where
  raw_data_id : String
  user_id : String
  text : String
  start_char_index : Option Int
  end_char_index : Option Int
  is_suggestion : Bool
deriving DecidableEq

/-- Row submitted to the `nodes` table by the materializer. -/
structure NodeRow where
  user_id : String
  type : String
  label : String
  description : String
  is_suggestion : Bool
deriving DecidableEq

/-- Row submitted to the `edges` table by the materializer. -/
structure EdgeRow where
  user_id : String
  from_node_id : String
  to_node_id : String
  type : String
  description : String
  is_suggestion : Bool
deriving DecidableEq

/-- Row submitted to the `quote_node_links` table by the materializer.
The insert payload in the source carries exactly these four fields. -/
structure LinkRow where
  quote_id : String
  node_id : String
  type : String
  user_id : String
deriving DecidableEq

/-- A `quote_node_links` row as stored, with the columns the insert
payload omits filled by the schema defaults of the initial migration
(`is_suggestion boolean default false`, nullable review columns). -/
structure StoredLinkRow where
  quote_id : String
  node_id : String
  type : String
  user_id : String
  is_suggestion : Bool
  reviewed_at : Option String
  reviewed_by : Option String
deriving DecidableEq

/-- Apply the schema defaults of `quote_node_links` to an insert payload:
the payload names no `is_suggestion`, `reviewed_at` or `reviewed_by`, so
the stored row takes `false` and nulls for them. -/
def storedLink (r : LinkRow) : StoredLinkRow :=
  ⟨r.quote_id, r.node_id, r.type, r.user_id, false, none, none⟩

/-- The object key used for entry `i` of an extraction array:
`entry.id ?? i`, stringified as JavaScript does for object keys. -/
def effKey (keys : List (Option String)) (i : Nat) : String :=
  match keys.get? i with
  | some (some s) => s
  | some none => Nat.repr i
  | none => Nat.repr i

/-- The temp-id map after the first `n` loop iterations of
`map[entries[i].id ?? i] = inserted[i].id`: later iterations overwrite
earlier bindings, exactly as assignment to a JavaScript object does. -/
def updTo (keys : List (Option String)) (ids : List String) (n : Nat) :
    String → Option String :=
  (List.range n).foldl
    (fun m i => fun k => if k = effKey keys i then ids.get? i else m k)
    (fun _ => none)

/-- The complete temp-id-to-durable-id map built from an extraction
array's keys and the list of durable ids returned by the insert. -/
def buildTempMap (keys : List (Option String)) (ids : List String) :
    String → Option String :=
  updTo keys ids keys.length

/-- Resolve a temporary id through a map, with the source's truthiness
guard `if (!fromNodeId) ...`: a missing binding (or an empty-string id)
counts as unresolved. -/
def resolveRef (m : String → Option String) (k : String) : Option String :=
  (m k).bind (fun v => if v = "" then none else some v)

/-- Decidable equality for `Except`, needed to derive it for the
environment records below. -/
instance {ε α : Type} [DecidableEq ε] [DecidableEq α] :
    DecidableEq (Except ε α) := fun x y =>
  match x, y with
  | .error a, .error b =>
      if h : a = b then .isTrue (by rw [h]) else .isFalse (by simp [h])
  | .ok a, .ok b =>
      if h : a = b then .isTrue (by rw [h]) else .isFalse (by simp [h])
  | .error _, .ok _ => .isFalse (by simp)
  | .ok _, .error _ => .isFalse (by simp)

/-- The storage layer's responses for one materialization run. -/
structure StorageEnv where
  quotesResult : Except String (List String)
  nodesResult : Except String (List String)
  edgesError : Option String
  linksError : Option String
  updateError : Option String
deriving DecidableEq

/-- `quotesToInsert` from the source: one row per extraction quote. -/
def quotesToInsert (rid uid : String) (qs : List QuoteEntry) : List QuoteRow :=
  qs.map (fun q => ⟨rid, uid, q.text, q.start_index, q.end_index, true⟩)

/-- `nodesToInsert` from the source: one row per extraction node. -/
def nodesToInsert (uid : String) (ns : List NodeEntry) : List NodeRow :=
  ns.map (fun n => ⟨uid, n.type, n.label, n.description, true⟩)

/-- `edgesToInsert` from the source: resolve both endpoints through the
node temp-id map and drop (filter out) any edge with an unresolved side. -/
def edgesToInsert (uid : String) (nodeMap : String → Option String)
    (es : List EdgeEntry) : List EdgeRow :=
  es.filterMap (fun e =>
    match resolveRef nodeMap e.from_node_id, resolveRef nodeMap e.to_node_id with
    | some f, some t => some ⟨uid, f, t, e.type, e.description, true⟩
    | _, _ => none)

/-- `linksToInsert` from the source: resolve the quote reference through
the quote map and the node reference through the node map, dropping any
link with an unresolved side. -/
def linksToInsert (uid : String) (quoteMap nodeMap : String → Option String)
    (ls : List LinkEntry) : List LinkRow :=
  ls.filterMap (fun l =>
    match resolveRef quoteMap l.quote_id, resolveRef nodeMap l.node_id with
    | some q, some n => some ⟨q, n, l.type, uid⟩
    | _, _ => none)

/-- `quoteTempIdToDbId` as populated by the run: filled only when the
quotes field was an array and the insert reported no error. -/
def quoteMapOf (ar : ExtractionResult) (env : StorageEnv) :
    String → Option String :=
  match ar.quotes, env.quotesResult with
  | .list qs, .ok ids => buildTempMap (qs.map (fun q => q.id)) ids
  | _, _ => fun _ => none

/-- `nodeTempIdToDbId` as populated by the run: filled only when the
nodes field was an array and the insert reported no error. -/
def nodeMapOf (ar : ExtractionResult) (env : StorageEnv) :
    String → Option String :=
  match ar.nodes, env.nodesResult with
  | .list ns, .ok ids => buildTempMap (ns.map (fun n => n.id)) ids
  | _, _ => fun _ => none

/-- The durable node ids persisted by this run: the ids the storage
layer returned for the node insert, when that phase ran and succeeded. -/
def persistedNodeIds (ar : ExtractionResult) (env : StorageEnv) : List String :=
  match ar.nodes, env.nodesResult with
  | .list _, .ok ids => ids
  | _, _ => []

/-- The durable quote ids persisted by this run. -/
def persistedQuoteIds (ar : ExtractionResult) (env : StorageEnv) : List String :=
  match ar.quotes, env.quotesResult with
  | .list _, .ok ids => ids
  | _, _ => []

/-- The rows each of the four insert phases submitted; a phase is `none`
when its field was absent or not an array, so the phase was skipped. -/
structure MatOut where
  quotePhase : Option (List QuoteRow)
  nodePhase : Option (List NodeRow)
  edgePhase : Option (List EdgeRow)
  linkPhase : Option (List LinkRow)
deriving DecidableEq

/-- The graph materializer: steps 3 of the handler, producing the rows
submitted by each phase. -/
def materialize (uid rid : String) (ar : ExtractionResult)
    (env : StorageEnv) : MatOut :=
  { quotePhase :=
      match ar.quotes with
      | .list qs => some (quotesToInsert rid uid qs)
      | _ => none
    nodePhase :=
      match ar.nodes with
      | .list ns => some (nodesToInsert uid ns)
      | _ => none
    edgePhase :=
      match ar.edges with
      | .list es => some (edgesToInsert uid (nodeMapOf ar env) es)
      | _ => none
    linkPhase :=
      match ar.quote_node_links with
      | .list ls => some (linksToInsert uid (quoteMapOf ar env) (nodeMapOf ar env) ls)
      | _ => none }

/-- The model string hard-wired in the source. -/
def usedModel : String := "gpt-4o-mini"

/-- Whether a string trims to something non-empty, i.e. contains a
non-whitespace character. This is `s.trim().length > 0` of the source,
expressed without `trim` so that it evaluates by kernel reduction. -/
def hasNonWhitespace (s : String) : Bool :=
  s.data.any (fun c => !c.isWhitespace)

/-- The condition under which the caller-supplied key is used:
`user_ai_key && typeof user_ai_key === 'string' && user_ai_key.trim().length > 0`.
For an optional string this is exactly "present and non-blank". -/
def userKeyUsable : Option String → Bool
  | none => false
  | some k => hasNonWhitespace k

/-- The configured-fallback chain of the credential selection:
openrouter first, then gemini, else the selection throws. -/
def fallbackKey (o g : Option String) : Except String (String × String) :=
  if jsTruthy o then .ok (o.getD "", "openrouter")
  else if jsTruthy g then .ok (g.getD "", "gemini")
  else .error "No valid API key available for LLM call."

/-- `selectedApiKey`/`selectedProvider` from the source: the caller key
wins when usable, otherwise the fallback chain decides. -/
def selectedApiKey (u o g : Option String) : Except String (String × String) :=
  if userKeyUsable u then .ok (u.getD "", "user")
  else fallbackKey o g

/-- The POST body of `process-ai-analysis` plus the request method and
whether the body parsed as JSON. -/
structure AReq where
  method : String
  bodyValid : Bool
  raw_data_id : Option String
  user_id : Option String
  user_ai_key : Option String
deriving DecidableEq

/-- Environment of one `process-ai-analysis` invocation: the raw-data
fetch outcome, the configured fallback secrets, the LLM call outcome
(an error, or a possibly-null message content), the `JSON.parse`
outcome for that content, and the storage responses. -/
structure AEnv where
  fetchRaw : Except String String
  openrouterApiKey : Option String
  geminiApiKey : Option String
  llmOutcome : Except String (Option String)
  parseResult : Except String ExtractionResult
  storage : StorageEnv
deriving DecidableEq

/-- Body of a `process-ai-analysis` response. -/
inductive ABody where
  | errorMsg (error : String) : ABody
  | success (message : String) (raw_data_id : String) : ABody
deriving DecidableEq

/-- A `process-ai-analysis` HTTP response. -/
structure AResp where
  status : Nat
  body : ABody
deriving DecidableEq

/-- Externally visible actions of one `process-ai-analysis` run. -/
inductive AEvent where
  | llmCall (api_key provider model : String) : AEvent
  | insertQuotes (rows : List QuoteRow) : AEvent
  | insertNodes (rows : List NodeRow) : AEvent
  | insertEdges (rows : List EdgeRow) : AEvent
  | insertLinks (rows : List LinkRow) : AEvent
  | updateProcessedAt (raw_data_id : String) : AEvent
  | consoleError (context msg : String) : AEvent
deriving DecidableEq

/-- The write/log actions of the materialization section of the handler
(steps 3 and 4): each phase runs only if its field is an array, an edge
or link insert is issued only when some rows survived resolution, a
phase error goes to the console log, and the `processed_at` update is
issued unconditionally at the end. -/
def matEvents (uid rid : String) (ar : ExtractionResult)
    (env : StorageEnv) : List AEvent :=
  (match ar.quotes with
   | .list qs =>
     AEvent.insertQuotes (quotesToInsert rid uid qs) ::
       (match env.quotesResult with
        | .error m => [AEvent.consoleError "Error inserting quotes:" m]
        | .ok _ => [])
   | _ => [])
  ++ (match ar.nodes with
      | .list ns =>
        AEvent.insertNodes (nodesToInsert uid ns) ::
          (match env.nodesResult with
           | .error m => [AEvent.consoleError "Error inserting nodes:" m]
           | .ok _ => [])
      | _ => [])
  ++ (match ar.edges with
      | .list es =>
        if (edgesToInsert uid (nodeMapOf ar env) es).isEmpty then []
        else
          AEvent.insertEdges (edgesToInsert uid (nodeMapOf ar env) es) ::
            (match env.edgesError with
             | some m => [AEvent.consoleError "Error inserting edges:" m]
             | none => [])
      | _ => [])
  ++ (match ar.quote_node_links with
      | .list ls =>
        if (linksToInsert uid (quoteMapOf ar env) (nodeMapOf ar env) ls).isEmpty then []
        else
          AEvent.insertLinks (linksToInsert uid (quoteMapOf ar env) (nodeMapOf ar env) ls) ::
            (match env.linksError with
             | some m => [AEvent.consoleError "Error inserting quote_node_links:" m]
             | none => [])
      | _ => [])
  ++ (AEvent.updateProcessedAt rid ::
        (match env.updateError with
         | some m => [AEvent.consoleError "Error updating raw_data processed status:" m]
         | none => []))

/-- The `process-ai-analysis` handler, branch for branch: method and
body validation, the required-field check with JS truthiness, the
raw-data fetch (outer try), credential selection, the LLM call, the
JSON parse (inner try), then materialization, the `processed_at`
update and the success response. -/
def processAnalysis (req : AReq) (env : AEnv) : AResp × List AEvent :=
  if req.method ≠ "POST" then
    (⟨405, .errorMsg "Method not allowed"⟩, [])
  else if req.bodyValid = false then
    (⟨400, .errorMsg "Invalid JSON body"⟩, [])
  else if (jsTruthy req.raw_data_id && jsTruthy req.user_id) = false then
    (⟨400, .errorMsg "raw_data_id and user_id are required"⟩, [])
  else
    match env.fetchRaw with
    | .error m =>
        (⟨500, .errorMsg m⟩,
         [AEvent.consoleError "Error in process-ai-analysis function:" m])
    | .ok _content =>
      match selectedApiKey req.user_ai_key env.openrouterApiKey env.geminiApiKey with
      | .error m =>
          (⟨500, .errorMsg ("Analysis failed: " ++ m)⟩,
           [AEvent.consoleError "Error during LLM analysis or parsing:" m])
      | .ok kp =>
        match env.llmOutcome with
        | .error m =>
            (⟨500, .errorMsg ("Analysis failed: " ++ m)⟩,
             [AEvent.llmCall kp.1 kp.2 usedModel,
              AEvent.consoleError "Error during LLM analysis or parsing:" m])
        | .ok none =>
            (⟨500, .errorMsg "Analysis failed: LLM returned empty response."⟩,
             [AEvent.llmCall kp.1 kp.2 usedModel,
              AEvent.consoleError "Error during LLM analysis or parsing:"
                "LLM returned empty response."])
        | .ok (some _raw) =>
          match env.parseResult with
          | .error m =>
              (⟨500, .errorMsg ("Analysis failed: Failed to parse LLM JSON response: " ++ m)⟩,
               [AEvent.llmCall kp.1 kp.2 usedModel,
                AEvent.consoleError "Error during LLM analysis or parsing:"
                  ("Failed to parse LLM JSON response: " ++ m)])
          | .ok ar =>
              (⟨200, .success "Analysis completed and results saved."
                  (req.raw_data_id.getD "")⟩,
               AEvent.llmCall kp.1 kp.2 usedModel ::
                 matEvents (req.user_id.getD "") (req.raw_data_id.getD "") ar env.storage)

/-- The `source_metadata` object of an upload request. -/
structure SMeta where
  user_id : Option String
  type : Option String
  url : Option String
deriving DecidableEq

/-- The POST body of `upload-data` plus the request method and whether
the body parsed as JSON. A `none` field stands for absent or not of the
type the handler's structure check expects. -/
structure UReq where
  method : String
  bodyValid : Bool
  text_content : Option String
  source_metadata : Option SMeta
  user_ai_key : Option String
deriving DecidableEq

/-- A storage error as surfaced to the catch block: its `message` and
`stack` properties, either possibly absent. -/
structure ErrInfo where
  message : Option String
  stack : Option String
deriving DecidableEq

/-- Outcome of `supabase.functions.invoke('process-ai-analysis', ...)`:
it returned data, returned a non-null error (rendered to a string by
the template literal), or threw. -/
inductive InvokeOutcome where
  | succeeded : InvokeOutcome
  | errored (rendered : String) : InvokeOutcome
  | threw (message : Option String) : InvokeOutcome
deriving DecidableEq

/-- Environment of one `upload-data` invocation. -/
structure UEnv where
  sourceInsert : Except ErrInfo String
  rawInsert : Except ErrInfo String
  invokeOutcome : InvokeOutcome
  elapsedMs : Nat
deriving DecidableEq

/-- Row submitted to the `sources` table. -/
structure SourceRow where
  user_id : String
  type : String
  url : Option String
  metadata : Option SMeta
deriving DecidableEq

/-- Row submitted to the `raw_data` table. -/
structure RawRow where
  source_id : String
  user_id : String
  content : String
deriving DecidableEq

/-- Externally visible actions of one `upload-data` run. The delete
constructors are part of the operation language so that the absence of
any rollback is expressible; the handler never emits them. -/
inductive UEvent where
  | insertSource (row : SourceRow) : UEvent
  | insertRaw (row : RawRow) : UEvent
  | invokeAnalysis (raw_data_id : String) (user_id : Option String)
      (user_ai_key : Option String) : UEvent
  | deleteSource (id : String) : UEvent
  | deleteRaw (id : String) : UEvent
deriving DecidableEq

/-- Whether an upload event is a rollback/delete operation. -/
def isDeleteEvent : UEvent → Bool
  | .deleteSource _ => true
  | .deleteRaw _ => true
  | _ => false

/-- The `debug` object of the validated handler's success response. -/
structure UDebug where
  elapsed_ms : Nat
  analysis_invoke_error : Option String
deriving DecidableEq

/-- Body of a response of the validated `upload-data` handler. -/
inductive UBody where
  | errorOnly (error : String) : UBody
  | fatal (error : String) (debug : Option String) : UBody
  | ok (message raw_data_id source_id analysis_status : String)
      (debug : UDebug) : UBody
deriving DecidableEq

/-- An `upload-data` HTTP response. -/
structure UResp where
  status : Nat
  body : UBody
deriving DecidableEq

/-- The string stored in `debug.analysis_invoke_error`:
`analysisInvokeError ? String(analysisInvokeError) : undefined`, where a
thrown exception was first replaced by
`invokeErr?.message || 'Unknown invocation error'`. -/
def invokeErrorString : InvokeOutcome → Option String
  | .succeeded => none
  | .errored r => some r
  | .threw m => some (jsOr m "Unknown invocation error")

/-- The `sources` row built by the validated handler:
`{ user_id, type: source_metadata?.type || 'manual', url, metadata }`. -/
def sourceRowOf (uid : String) (meta : SMeta) : SourceRow :=
  ⟨uid, jsOr meta.type "manual", meta.url, some meta⟩

/-- The validated `upload-data` handler (the handler with the structure
check and the structured `debug` response), branch for branch. -/
def uploadData (req : UReq) (env : UEnv) : UResp × List UEvent :=
  if req.method ≠ "POST" then
    (⟨405, .errorOnly "Method not allowed"⟩, [])
  else if req.bodyValid = false then
    (⟨400, .errorOnly "Invalid JSON body"⟩, [])
  else
    match req.text_content, req.source_metadata with
    | some text, some meta =>
      if text = "" ∨ truthyOpt meta.user_id = none then
        (⟨400, .errorOnly "text_content and user_id are required"⟩, [])
      else
        match env.sourceInsert with
        | .error e =>
            (⟨500, .fatal (jsOr e.message "Unknown error") e.stack⟩,
             [UEvent.insertSource (sourceRowOf ((truthyOpt meta.user_id).getD "") meta)])
        | .ok sid =>
          match env.rawInsert with
          | .error e =>
              (⟨500, .fatal (jsOr e.message "Unknown error") e.stack⟩,
               [UEvent.insertSource (sourceRowOf ((truthyOpt meta.user_id).getD "") meta),
                UEvent.insertRaw ⟨sid, (truthyOpt meta.user_id).getD "", text⟩])
          | .ok rid =>
              (⟨200, .ok "Data uploaded and analysis function invoked" rid sid
                 (match env.invokeOutcome with
                  | .succeeded => "success"
                  | _ => "failed")
                 ⟨env.elapsedMs, invokeErrorString env.invokeOutcome⟩⟩,
               [UEvent.insertSource (sourceRowOf ((truthyOpt meta.user_id).getD "") meta),
                UEvent.insertRaw ⟨sid, (truthyOpt meta.user_id).getD "", text⟩,
                UEvent.invokeAnalysis rid (some ((truthyOpt meta.user_id).getD "")) req.user_ai_key])
    | _, _ => (⟨400, .errorOnly "Invalid input structure"⟩, [])

/-- Body of a response of the draft `upload-data` handler (the earlier
draft kept in the repository, which substitutes a placeholder owner). -/
inductive V2Body where
  | errorOnly (error : String) : V2Body
  | ok (message raw_data_id source_id : String) : V2Body
deriving DecidableEq

/-- A response of the draft `upload-data` handler. -/
structure V2Resp where
  status : Nat
  body : V2Body
deriving DecidableEq

/-- The placeholder owner the draft handler falls back to:
`user_id || '00000000-0000-0000-0000-000000000000'`. -/
def placeholderOwner : String := "00000000-0000-0000-0000-000000000000"

/-- The owner the draft handler writes: the caller's `user_id` when
truthy, otherwise the placeholder. -/
def v2Owner (req : UReq) : String :=
  (truthyOpt (req.source_metadata.bind (fun m => m.user_id))).getD placeholderOwner

/-- The `sources` row built by the draft handler. -/
def sourceRowV2 (req : UReq) : SourceRow :=
  ⟨v2Owner req, jsOr (req.source_metadata.bind (fun m => m.type)) "manual",
   req.source_metadata.bind (fun m => m.url), req.source_metadata⟩

/-- The draft `upload-data` handler, branch for branch: it requires only
`text_content`, warns (but continues) on a missing owner, and inserts
with the placeholder owner in that case. -/
def uploadDataV2 (req : UReq) (env : UEnv) : V2Resp × List UEvent :=
  if req.method ≠ "POST" then
    (⟨405, .errorOnly "Method not allowed"⟩, [])
  else if req.bodyValid = false then
    (⟨400, .errorOnly "Invalid JSON body"⟩, [])
  else
    match truthyOpt req.text_content with
    | none => (⟨400, .errorOnly "text_content is required"⟩, [])
    | some text =>
      match env.sourceInsert with
      | .error e =>
          (⟨500, .errorOnly (jsOr e.message "Unknown error")⟩,
           [UEvent.insertSource (sourceRowV2 req)])
      | .ok sid =>
        match env.rawInsert with
        | .error e =>
            (⟨500, .errorOnly (jsOr e.message "Unknown error")⟩,
             [UEvent.insertSource (sourceRowV2 req),
              UEvent.insertRaw ⟨sid, v2Owner req, text⟩])
        | .ok rid =>
            (⟨200, .ok "Data uploaded and analysis function invoked" rid sid⟩,
             [UEvent.insertSource (sourceRowV2 req),
              UEvent.insertRaw ⟨sid, v2Owner req, text⟩,
              UEvent.invokeAnalysis rid
                (truthyOpt (req.source_metadata.bind (fun m => m.user_id)))
                req.user_ai_key])

/-- The POST body the authenticated upload route receives. -/
structure RouteBody where
  text_content : Option String
  source_type : Option String
  source_url : Option String
  user_ai_key : Option String
deriving DecidableEq

/-- What the route forwards to the `upload-data` edge function. -/
structure RouteForward where
  text_content : String
  source_metadata : SMeta
  user_ai_key : Option String
deriving DecidableEq

/-- The authenticated upload route (`src/routes/upload/+server.ts`) up
to the point it forwards to the edge function: session check, body
parse, `text_content` presence, then the forwarded body whose
`source_metadata.user_id` is the session identity. -/
def routePOST (sessionUserId : Option String) (body : Option RouteBody) :
    Except (Nat × String) RouteForward :=
  match sessionUserId with
  | none => .error (401, "Not authenticated")
  | some uid =>
    match body with
    | none => .error (400, "Invalid JSON body")
    | some b =>
      match truthyOpt b.text_content with
      | none => .error (400, "Missing required text_content")
      | some t =>
          .ok ⟨t, ⟨some uid, some (jsOr b.source_type "manual"), b.source_url⟩,
               b.user_ai_key⟩

/-- An extraction result with every field absent. -/
def arEmpty : ExtractionResult := ⟨.absent, .absent, .absent, .absent⟩

/-- A storage environment in which every phase succeeds with no rows. -/
def stOk : StorageEnv := ⟨.ok [], .ok [], none, none, none⟩

/-- Concrete extraction result: one quote, two nodes, one resolvable
edge and one dangling edge, one resolvable link and one dangling link. -/
def arC1 : ExtractionResult :=
  { quotes := .list [⟨some "1", "q one", some 0, some 10⟩]
    nodes := .list [⟨some "1", "pain", "Login crash", "desc"⟩,
                    ⟨some "2", "solution", "Fix login", "d2"⟩]
    edges := .list [⟨"1", "2", "causes", "d"⟩, ⟨"9", "1", "relates_to", "x"⟩]
    quote_node_links := .list [⟨"1", "1", "supports"⟩, ⟨"1", "9", "supports"⟩] }

/-- Storage environment for `arC1`: all inserts succeed. -/
def stC1 : StorageEnv := ⟨.ok ["Q1"], .ok ["N1", "N2"], none, none, none⟩

/-- A valid analysis request with no caller credential. -/
def reqNoKey : AReq := ⟨"POST", true, some "RD1", some "U1", none⟩

/-- A valid analysis request with a usable caller credential. -/
def reqWithKey : AReq := ⟨"POST", true, some "RD1", some "U1", some "sk-user-key"⟩

/-- Analysis environment with no fallback secrets configured. -/
def envNoCred : AEnv := ⟨.ok "text", none, none, .ok (some "x"), .ok arEmpty, stOk⟩

/-- Analysis environment whose LLM response fails to parse as JSON. -/
def envParseFail : AEnv :=
  ⟨.ok "text", none, none, .ok (some "not json"), .error "Unexpected token", stOk⟩

/-- Analysis environment where parsing succeeds on `arC1` but the
quotes insert fails; nodes succeed. -/
def envQuoteFail : AEnv :=
  ⟨.ok "text", none, none, .ok (some "json"),
   .ok arC1, ⟨.error "constraint violated", .ok ["N1", "N2"], none, none, none⟩⟩

/-- Concrete extraction result for the phase-status claim: one quote,
one node, no edges or links. -/
def arC6 : ExtractionResult :=
  { quotes := .list [⟨some "1", "t", none, none⟩]
    nodes := .list [⟨some "1", "pain", "L", ""⟩]
    edges := .list []
    quote_node_links := .list [] }

/-- Analysis environment for `arC6` where everything succeeds. -/
def envC6ok : AEnv :=
  ⟨.ok "text", none, none, .ok (some "j"), .ok arC6,
   ⟨.ok ["Q1"], .ok ["N1"], none, none, none⟩⟩

/-- Analysis environment for `arC6` identical to `envC6ok` except that
the quotes insert fails with a constraint violation. -/
def envC6bad : AEnv :=
  ⟨.ok "text", none, none, .ok (some "j"), .ok arC6,
   ⟨.error "duplicate key value violates unique constraint", .ok ["N1"],
    none, none, none⟩⟩

/-- Extraction result whose `nodes` field is present but not an array. -/
def arC8 : ExtractionResult := ⟨.list [], .notList, .absent, .absent⟩

/-- Analysis environment whose LLM response parses to `arC8`. -/
def envC8 : AEnv := ⟨.ok "text", none, none, .ok (some "j"), .ok arC8, stOk⟩

/-- Extraction result with one quote, one node and one link. -/
def arC9 : ExtractionResult :=
  { quotes := .list [⟨some "1", "great", none, none⟩]
    nodes := .list [⟨some "1", "pain", "Login crash", "d"⟩]
    edges := .list []
    quote_node_links := .list [⟨"1", "1", "supports"⟩] }

/-- Storage environment for `arC9`: all inserts succeed. -/
def stC9 : StorageEnv := ⟨.ok ["Q1"], .ok ["N1"], none, none, none⟩

/-- Analysis environment where parsing succeeds on `arC9` but the
quotes insert fails. -/
def envC4w : AEnv :=
  ⟨.ok "text", none, none, .ok (some "j"), .ok arC9,
   ⟨.error "insert failed", .ok ["N1"], none, none, none⟩⟩

/-- A valid upload request (owner present). -/
def reqU5 : UReq := ⟨"POST", true, some "hello", some ⟨some "U1", none, none⟩, none⟩

/-- Upload environment where both inserts succeed and the analysis
invocation returns an error. -/
def envU5 : UEnv := ⟨.ok "S1", .ok "R1", .errored "FunctionsHttpError", 42⟩

/-- Upload environment where everything succeeds. -/
def envUok : UEnv := ⟨.ok "S1", .ok "R1", .succeeded, 5⟩

/-- An upload request whose `source_metadata` carries no owner. -/
def reqC10 : UReq := ⟨"POST", true, some "hello world", some ⟨none, none, none⟩, none⟩

theorem updTo_succ (keys : List (Option String)) (ids : List String)
    (n : Nat) (k : String) :
    updTo keys ids (n + 1) k =
      if k = effKey keys n then ids.get? n else updTo keys ids n k := by
  unfold updTo
  rw [List.range_succ, List.foldl_append]
  rfl

theorem updTo_some_mem (keys : List (Option String)) (ids : List String) :
    ∀ n k v, updTo keys ids n k = some v → v ∈ ids := by
  intro n
  induction n with
  | zero => intro k v h; cases h
  | succ m ih =>
    intro k v h
    rw [updTo_succ] at h
    by_cases hk : k = effKey keys m
    · rw [if_pos hk] at h
      exact List.get?_mem h
    · rw [if_neg hk] at h
      exact ih k v h

theorem buildTempMap_some_mem (keys : List (Option String)) (ids : List String)
    (k v : String) (h : buildTempMap keys ids k = some v) : v ∈ ids :=
  updTo_some_mem keys ids keys.length k v h

theorem resolveRef_some {m : String → Option String} {k v : String}
    (h : resolveRef m k = some v) : m k = some v := by
  unfold resolveRef at h
  rcases Option.bind_eq_some.mp h with ⟨w, hw, hf⟩
  by_cases hw' : w = ""
  · rw [if_pos hw'] at hf; cases hf
  · rw [if_neg hw'] at hf
    cases hf
    exact hw

theorem quoteMapOf_resolve_mem {ar : ExtractionResult} {env : StorageEnv}
    {k v : String} (h : resolveRef (quoteMapOf ar env) k = some v) :
    v ∈ persistedQuoteIds ar env := by
  have h' := resolveRef_some h
  unfold quoteMapOf at h'
  unfold persistedQuoteIds
  cases hq : ar.quotes with
  | list qs =>
    cases hr : env.quotesResult with
    | ok ids =>
      rw [hq, hr] at h'
      exact buildTempMap_some_mem _ _ _ _ h'
    | error m => rw [hq, hr] at h'; cases h'
  | absent => rw [hq] at h'; cases h'
  | notList => rw [hq] at h'; cases h'

theorem nodeMapOf_resolve_mem {ar : ExtractionResult} {env : StorageEnv}
    {k v : String} (h : resolveRef (nodeMapOf ar env) k = some v) :
    v ∈ persistedNodeIds ar env := by
  have h' := resolveRef_some h
  unfold nodeMapOf at h'
  unfold persistedNodeIds
  cases hq : ar.nodes with
  | list ns =>
    cases hr : env.nodesResult with
    | ok ids =>
      rw [hq, hr] at h'
      exact buildTempMap_some_mem _ _ _ _ h'
    | error m => rw [hq, hr] at h'; cases h'
  | absent => rw [hq] at h'; cases h'
  | notList => rw [hq] at h'; cases h'

theorem edgesToInsert_mem_iff (uid : String) (nodeMap : String → Option String)
    (es : List EdgeEntry) (r : EdgeRow) :
    r ∈ edgesToInsert uid nodeMap es ↔
      ∃ e ∈ es, ∃ f t, resolveRef nodeMap e.from_node_id = some f ∧
        resolveRef nodeMap e.to_node_id = some t ∧
        r = ⟨uid, f, t, e.type, e.description, true⟩ := by
  unfold edgesToInsert
  rw [List.mem_filterMap]
  constructor
  · rintro ⟨e, he, hf⟩
    refine ⟨e, he, ?_⟩
    cases h1 : resolveRef nodeMap e.from_node_id with
    | none => rw [h1] at hf; cases hf
    | some f =>
      cases h2 : resolveRef nodeMap e.to_node_id with
      | none => rw [h1, h2] at hf; cases hf
      | some t =>
        rw [h1, h2] at hf
        exact ⟨f, t, rfl, rfl, ((Option.some.injEq _ _).mp hf).symm⟩
  · rintro ⟨e, he, f, t, h1, h2, hr⟩
    refine ⟨e, he, ?_⟩
    rw [h1, h2, hr]

theorem linksToInsert_mem_iff (uid : String)
    (quoteMap nodeMap : String → Option String) (ls : List LinkEntry) (r : LinkRow) :
    r ∈ linksToInsert uid quoteMap nodeMap ls ↔
      ∃ l ∈ ls, ∃ q n, resolveRef quoteMap l.quote_id = some q ∧
        resolveRef nodeMap l.node_id = some n ∧
        r = ⟨q, n, l.type, uid⟩ := by
  unfold linksToInsert
  rw [List.mem_filterMap]
  constructor
  · rintro ⟨l, hl, hf⟩
    refine ⟨l, hl, ?_⟩
    cases h1 : resolveRef quoteMap l.quote_id with
    | none => rw [h1] at hf; cases hf
    | some q =>
      cases h2 : resolveRef nodeMap l.node_id with
      | none => rw [h1, h2] at hf; cases hf
      | some n =>
        rw [h1, h2] at hf
        exact ⟨q, n, rfl, rfl, ((Option.some.injEq _ _).mp hf).symm⟩
  · rintro ⟨l, hl, q, n, h1, h2, hr⟩
    refine ⟨l, hl, ?_⟩
    rw [h1, h2, hr]

/-- C1: the materializer writes an Edge row only when both endpoints
resolve through the node temp-id map and a QuoteNodeLink row only when
both references resolve through the quote and node maps; an entry with
an unresolved side is dropped while the resolvable entries are still
inserted; consequently every inserted Edge/QuoteNodeLink row references
only durable ids the storage layer persisted in the same run. -/
theorem graph_refs_resolved (uid rid : String) (ar : ExtractionResult)
    (env : StorageEnv) :
    (∀ es rows, ar.edges = .list es →
       (materialize uid rid ar env).edgePhase = some rows →
         (∀ r ∈ rows,
            (r.from_node_id ∈ persistedNodeIds ar env ∧
             r.to_node_id ∈ persistedNodeIds ar env) ∧
            ∃ e ∈ es, resolveRef (nodeMapOf ar env) e.from_node_id = some r.from_node_id ∧
              resolveRef (nodeMapOf ar env) e.to_node_id = some r.to_node_id) ∧
         (∀ e ∈ es, ∀ f t,
            resolveRef (nodeMapOf ar env) e.from_node_id = some f →
            resolveRef (nodeMapOf ar env) e.to_node_id = some t →
            (⟨uid, f, t, e.type, e.description, true⟩ : EdgeRow) ∈ rows)) ∧
    (∀ ls rows, ar.quote_node_links = .list ls →
       (materialize uid rid ar env).linkPhase = some rows →
         (∀ r ∈ rows,
            (r.quote_id ∈ persistedQuoteIds ar env ∧
             r.node_id ∈ persistedNodeIds ar env) ∧
            ∃ l ∈ ls, resolveRef (quoteMapOf ar env) l.quote_id = some r.quote_id ∧
              resolveRef (nodeMapOf ar env) l.node_id = some r.node_id) ∧
         (∀ l ∈ ls, ∀ q n,
            resolveRef (quoteMapOf ar env) l.quote_id = some q →
            resolveRef (nodeMapOf ar env) l.node_id = some n →
            (⟨q, n, l.type, uid⟩ : LinkRow) ∈ rows)) := by
  constructor
  · intro es rows he hrows
    have hrows' : rows = edgesToInsert uid (nodeMapOf ar env) es := by
      unfold materialize at hrows
      rw [he] at hrows
      exact (Option.some.injEq _ _).mp hrows.symm
    subst hrows'
    constructor
    · intro r hr
      rcases (edgesToInsert_mem_iff uid (nodeMapOf ar env) es r).mp hr with
        ⟨e, he', f, t, h1, h2, hreq⟩
      subst hreq
      exact ⟨⟨nodeMapOf_resolve_mem h1, nodeMapOf_resolve_mem h2⟩, e, he', h1, h2⟩
    · intro e he' f t h1 h2
      exact (edgesToInsert_mem_iff uid (nodeMapOf ar env) es _).mpr
        ⟨e, he', f, t, h1, h2, rfl⟩
  · intro ls rows hl hrows
    have hrows' : rows = linksToInsert uid (quoteMapOf ar env) (nodeMapOf ar env) ls := by
      unfold materialize at hrows
      rw [hl] at hrows
      exact (Option.some.injEq _ _).mp hrows.symm
    subst hrows'
    constructor
    · intro r hr
      rcases (linksToInsert_mem_iff uid (quoteMapOf ar env) (nodeMapOf ar env) ls r).mp hr with
        ⟨l, hl', q, n, h1, h2, hreq⟩
      subst hreq
      exact ⟨⟨quoteMapOf_resolve_mem h1, nodeMapOf_resolve_mem h2⟩, l, hl', h1, h2⟩
    · intro l hl' q n h1 h2
      exact (linksToInsert_mem_iff uid (quoteMapOf ar env) (nodeMapOf ar env) ls _).mpr
        ⟨l, hl', q, n, h1, h2, rfl⟩

/-- Witness for C1 at a concrete run: the materializer's resolvable edge
is inserted and its endpoints are ids persisted in the same run, all
obtained by instantiating the theorem. -/
theorem graph_refs_resolved_witness :
    ("N1" ∈ persistedNodeIds arC1 stC1 ∧ "N2" ∈ persistedNodeIds arC1 stC1) ∧
    (⟨"U1", "N1", "N2", "causes", "d", true⟩ : EdgeRow) ∈
      edgesToInsert "U1" (nodeMapOf arC1 stC1)
        [⟨"1", "2", "causes", "d"⟩, ⟨"9", "1", "relates_to", "x"⟩] := by
  have h := graph_refs_resolved "U1" "RD1" arC1 stC1
  have h1 := (h.1 [⟨"1", "2", "causes", "d"⟩, ⟨"9", "1", "relates_to", "x"⟩]
    (edgesToInsert "U1" (nodeMapOf arC1 stC1)
      [⟨"1", "2", "causes", "d"⟩, ⟨"9", "1", "relates_to", "x"⟩]) rfl rfl)
  refine ⟨?_, ?_⟩
  · have hm := h1.1 ⟨"U1", "N1", "N2", "causes", "d", true⟩ (by decide)
    exact hm.1
  · exact h1.2 ⟨"1", "2", "causes", "d"⟩ (by decide) "N1" "N2" (by decide) (by decide)

theorem updTo_last (keys : List (Option String)) (ids : List String)
    (k : String) (j : Nat) (hk : effKey keys j = k) :
    ∀ n, j < n → (∀ l, j < l → l < n → effKey keys l ≠ k) →
      updTo keys ids n k = ids.get? j := by
  intro n
  induction n with
  | zero => intro hj _; exact absurd hj (Nat.not_lt_zero j)
  | succ m ih =>
    intro hj hlast
    rw [updTo_succ]
    by_cases hjm : j = m
    · subst hjm
      rw [if_pos hk.symm]
    · have hjm' : j < m := Nat.lt_of_le_of_ne (Nat.le_of_lt_succ hj) hjm
      have hne : effKey keys m ≠ k := hlast m hjm' (Nat.lt_succ_self m)
      rw [if_neg (fun hkk => hne hkk.symm)]
      exact ih hjm' (fun l h1 h2 => hlast l h1 (Nat.lt_succ_of_lt h2))

/-- C7: the temp-id-to-durable-id map binds each duplicated
extraction-local id to the durable id at the position of its last
occurrence in the array; an entry with no id is keyed by its
(stringified) array index; and these maps are exactly the ones the
materializer consults, so repeated runs on the same input resolve
identically (the map is a pure function of the extraction arrays and
the returned durable ids). -/
theorem tempid_last_occurrence_wins :
    (∀ (keys : List (Option String)) (ids : List String) (k : String) (j : Nat),
       j < keys.length → effKey keys j = k →
       (∀ l, j < l → l < keys.length → effKey keys l ≠ k) →
       buildTempMap keys ids k = ids.get? j)
    ∧ (∀ (keys : List (Option String)) (i : Nat),
         keys.get? i = some none → effKey keys i = Nat.repr i)
    ∧ (∀ (ar : ExtractionResult) (env : StorageEnv)
         (ns : List NodeEntry) (ids : List String),
         ar.nodes = .list ns → env.nodesResult = .ok ids →
         nodeMapOf ar env = buildTempMap (ns.map (fun n => n.id)) ids)
    ∧ (∀ (ar : ExtractionResult) (env : StorageEnv)
         (qs : List QuoteEntry) (ids : List String),
         ar.quotes = .list qs → env.quotesResult = .ok ids →
         quoteMapOf ar env = buildTempMap (qs.map (fun q => q.id)) ids) := by
  refine ⟨?_, ?_, ?_, ?_⟩
  · intro keys ids k j hj hk hlast
    exact updTo_last keys ids k j hk keys.length hj hlast
  · intro keys i h
    unfold effKey
    rw [h]
  · intro ar env ns ids hn hr
    unfold nodeMapOf
    rw [hn, hr]
  · intro ar env qs ids hq hr
    unfold quoteMapOf
    rw [hq, hr]

/-- Witness for C7: with the duplicated temp id `7` the map resolves to
the durable id inserted for the last occurrence; an id-less entry at
index 1 is keyed by `1`; and the materializer's node map for a concrete
run is the built map — all by instantiating the theorem. -/
theorem tempid_last_occurrence_wins_witness :
    buildTempMap [some "7", some "7"] ["a", "b"] "7" = some "b"
    ∧ effKey [some "x", none] 1 = "1"
    ∧ nodeMapOf arC1 stC1 =
        buildTempMap [some "1", some "2"] ["N1", "N2"] := by
  refine ⟨?_, ?_, ?_⟩
  · exact tempid_last_occurrence_wins.1 [some "7", some "7"] ["a", "b"] "7" 1
      (by decide) (by decide)
      (fun l h1 h2 => absurd (show l < 2 from h2) (by omega))
  · exact tempid_last_occurrence_wins.2.1 [some "x", none] 1 rfl
  · exact tempid_last_occurrence_wins.2.2.1 arC1 stC1
      [⟨some "1", "pain", "Login crash", "desc"⟩,
       ⟨some "2", "solution", "Fix login", "d2"⟩] ["N1", "N2"] rfl rfl

/-- C2 counterexample: the caller-supplied credential `" "` is a
non-empty string, yet the selection does not choose it outright — the
configured openrouter fallback wins, because the source requires the
caller key to be non-empty after trimming. -/
theorem blank_caller_key_not_chosen :
    selectedApiKey (some " ") (some "fallback-or") none =
      .ok ("fallback-or", "openrouter")
    ∧ (" " : String) ≠ ""
    ∧ selectedApiKey (some " ") (some "fallback-or") none ≠ .ok (" ", "user") := by
  refine ⟨by decide, by decide, by decide⟩

/-- C2 (amended): selection prefers a caller credential that is
non-empty after trimming; a blank or absent caller credential falls
through the fallback chain in the fixed order openrouter-then-gemini;
and when no usable caller credential and no fallback is configured the
handler answers with the no-credential failure without ever issuing an
LLM call. -/
theorem credential_selection_order (req : AReq) (env : AEnv)
    (hm : req.method = "POST") (hb : req.bodyValid = true)
    (hr : jsTruthy req.raw_data_id = true) (hu : jsTruthy req.user_id = true)
    (content : String) (hf : env.fetchRaw = .ok content) :
    (∀ k, req.user_ai_key = some k → hasNonWhitespace k = true →
       selectedApiKey req.user_ai_key env.openrouterApiKey env.geminiApiKey =
         .ok (k, "user"))
    ∧ (userKeyUsable req.user_ai_key = false →
       selectedApiKey req.user_ai_key env.openrouterApiKey env.geminiApiKey =
         fallbackKey env.openrouterApiKey env.geminiApiKey)
    ∧ (∀ o g : Option String, jsTruthy o = true →
         fallbackKey o g = .ok (o.getD "", "openrouter"))
    ∧ (∀ o g : Option String, jsTruthy o = false → jsTruthy g = true →
         fallbackKey o g = .ok (g.getD "", "gemini"))
    ∧ (userKeyUsable req.user_ai_key = false →
       jsTruthy env.openrouterApiKey = false →
       jsTruthy env.geminiApiKey = false →
       (processAnalysis req env).1 =
         ⟨500, .errorMsg "Analysis failed: No valid API key available for LLM call."⟩
       ∧ ∀ k p mo, AEvent.llmCall k p mo ∉ (processAnalysis req env).2) := by
  refine ⟨?_, ?_, ?_, ?_, ?_⟩
  · intro k hk hn
    rw [hk]
    simp [selectedApiKey, userKeyUsable, hn]
  · intro h
    simp [selectedApiKey, h]
  · intro o g h
    simp [fallbackKey, h]
  · intro o g h1 h2
    simp [fallbackKey, h1, h2]
  · intro husable ho hg
    have hsel : selectedApiKey req.user_ai_key env.openrouterApiKey env.geminiApiKey =
        .error "No valid API key available for LLM call." := by
      simp [selectedApiKey, fallbackKey, husable, ho, hg]
    constructor
    · simp [processAnalysis, hm, hb, hr, hu, hf, hsel]
    · intro k p mo hmem
      simp [processAnalysis, hm, hb, hr, hu, hf, hsel] at hmem

/-- Witness for C2: with no caller credential and no fallback secrets
the concrete run fails with the no-credential message and issues no LLM
call, by instantiating the theorem. -/
theorem credential_selection_order_witness :
    (processAnalysis reqNoKey envNoCred).1 =
      ⟨500, .errorMsg "Analysis failed: No valid API key available for LLM call."⟩
    ∧ AEvent.llmCall "k" "user" "gpt-4o-mini" ∉ (processAnalysis reqNoKey envNoCred).2 := by
  have h := (credential_selection_order reqNoKey envNoCred rfl rfl (by decide)
    (by decide) "text" rfl).2.2.2.2 (by decide) (by decide) (by decide)
  exact ⟨h.1, h.2 "k" "user" "gpt-4o-mini"⟩

theorem selectedApiKey_usable_eq {u : Option String}
    (h : userKeyUsable u = true) (o g : Option String) :
    selectedApiKey u o g = .ok (u.getD "", "user") := by
  simp [selectedApiKey, h]

theorem selectedApiKey_not_usable_eq {u : Option String}
    (h : userKeyUsable u = false) (o g : Option String) :
    selectedApiKey u o g = fallbackKey o g := by
  simp [selectedApiKey, h]

/-- C3: credential noninterference. The response of the validated
upload handler is identical for any two caller-supplied credential
values, and the response of the analysis handler is identical for any
two credential values that agree on usability (both blank/absent or
both usable) — the credential value flows only into the outgoing LLM
call and the forwarded invocation body, never into any returned
response, error body or debug field. -/
theorem response_credential_noninterference :
    (∀ (m : String) (bv : Bool) (tc : Option String) (sm : Option SMeta)
       (env : UEnv) (k1 k2 : Option String),
       (uploadData ⟨m, bv, tc, sm, k1⟩ env).1 =
         (uploadData ⟨m, bv, tc, sm, k2⟩ env).1)
    ∧ (∀ (m : String) (bv : Bool) (rd uf : Option String)
       (env : AEnv) (k1 k2 : Option String),
       userKeyUsable k1 = userKeyUsable k2 →
       (processAnalysis ⟨m, bv, rd, uf, k1⟩ env).1 =
         (processAnalysis ⟨m, bv, rd, uf, k2⟩ env).1) := by
  constructor
  · intro m bv tc sm env k1 k2
    unfold uploadData
    dsimp only
    repeat' split
    all_goals rfl
  · intro m bv rd uf env k1 k2 h
    unfold processAnalysis
    dsimp only
    cases hu1 : userKeyUsable k1 with
    | false =>
      have hu2 : userKeyUsable k2 = false := by rw [← h, hu1]
      rw [selectedApiKey_not_usable_eq hu1, selectedApiKey_not_usable_eq hu2]
    | true =>
      have hu2 : userKeyUsable k2 = true := by rw [← h, hu1]
      rw [selectedApiKey_usable_eq hu1, selectedApiKey_usable_eq hu2]
      dsimp only
      repeat' split
      all_goals rfl

/-- Witness for C3: two concrete runs of the analysis handler that
differ only in the caller credential value produce equal responses, by
instantiating the theorem. -/
theorem response_credential_noninterference_witness :
    (processAnalysis ⟨"POST", true, some "RD1", some "U1", some "sk-alpha"⟩ envNoCred).1 =
      (processAnalysis ⟨"POST", true, some "RD1", some "U1", some "sk-beta"⟩ envNoCred).1 :=
  response_credential_noninterference.2 "POST" true (some "RD1") (some "U1")
    envNoCred (some "sk-alpha") (some "sk-beta") (by decide)

theorem updateProcessedAt_mem_matEvents (uid rid : String)
    (ar : ExtractionResult) (st : StorageEnv) :
    AEvent.updateProcessedAt rid ∈ matEvents uid rid ar st := by
  unfold matEvents
  simp [List.mem_append]

/-- C4 counterexample: for a persisted submission whose LLM response
fails to parse, the handler returns the failure response and the run
contains no `processed_at` update — the final stamping step does not
execute on this failure path. -/
theorem processed_at_skipped_on_parse_failure :
    (processAnalysis reqWithKey envParseFail).1 =
      ⟨500, .errorMsg "Analysis failed: Failed to parse LLM JSON response: Unexpected token"⟩
    ∧ AEvent.updateProcessedAt "RD1" ∉ (processAnalysis reqWithKey envParseFail).2 := by
  refine ⟨by decide, by decide⟩

/-- C4 (amended): `processed_at` is stamped exactly when the pipeline
reaches materialization — the handler's response is the success
response if and only if the update is issued; it is issued regardless
of storage-phase failures once parsing succeeded; and on a parse
failure (or any earlier pipeline failure) the handler returns without
stamping. -/
theorem processed_at_stamped_iff_success (req : AReq) (env : AEnv)
    (hm : req.method = "POST") (hb : req.bodyValid = true)
    (hr : jsTruthy req.raw_data_id = true) (hu : jsTruthy req.user_id = true)
    (content : String) (hf : env.fetchRaw = .ok content) :
    ((processAnalysis req env).1.status = 200 ↔
       AEvent.updateProcessedAt (req.raw_data_id.getD "") ∈ (processAnalysis req env).2)
    ∧ (∀ m, env.parseResult = .error m →
         AEvent.updateProcessedAt (req.raw_data_id.getD "") ∉ (processAnalysis req env).2)
    ∧ (∀ ar kp raw,
         selectedApiKey req.user_ai_key env.openrouterApiKey env.geminiApiKey = .ok kp →
         env.llmOutcome = .ok (some raw) → env.parseResult = .ok ar →
         AEvent.updateProcessedAt (req.raw_data_id.getD "") ∈ (processAnalysis req env).2) := by
  refine ⟨?_, ?_, ?_⟩
  · rcases hsel : selectedApiKey req.user_ai_key env.openrouterApiKey env.geminiApiKey with m | kp
    · simp [processAnalysis, hm, hb, hr, hu, hf, hsel]
    · rcases hllm : env.llmOutcome with m | oc
      · simp [processAnalysis, hm, hb, hr, hu, hf, hsel, hllm]
      · cases oc with
        | none => simp [processAnalysis, hm, hb, hr, hu, hf, hsel, hllm]
        | some raw =>
          rcases hpr : env.parseResult with m | ar
          · simp [processAnalysis, hm, hb, hr, hu, hf, hsel, hllm, hpr]
          · simp [processAnalysis, hm, hb, hr, hu, hf, hsel, hllm, hpr,
                  updateProcessedAt_mem_matEvents]
  · intro m2 hpr2
    rcases hsel : selectedApiKey req.user_ai_key env.openrouterApiKey env.geminiApiKey with m | kp
    · simp [processAnalysis, hm, hb, hr, hu, hf, hsel]
    · rcases hllm : env.llmOutcome with m | oc
      · simp [processAnalysis, hm, hb, hr, hu, hf, hsel, hllm]
      · cases oc with
        | none => simp [processAnalysis, hm, hb, hr, hu, hf, hsel, hllm]
        | some raw => simp [processAnalysis, hm, hb, hr, hu, hf, hsel, hllm, hpr2]
  · intro ar kp raw hsel hllm hpr
    simp [processAnalysis, hm, hb, hr, hu, hf, hsel, hllm, hpr,
          updateProcessedAt_mem_matEvents]

/-- Witness for C4: a concrete run whose quotes insert fails still
stamps `processed_at`, by instantiating the theorem. -/
theorem processed_at_stamped_iff_success_witness :
    AEvent.updateProcessedAt "RD1" ∈ (processAnalysis reqWithKey envC4w).2 :=
  (processed_at_stamped_iff_success reqWithKey envC4w rfl rfl (by decide)
      (by decide) "text" rfl).2.2 arC9 ("sk-user-key", "user") "j"
    (by decide) rfl rfl

/-- C5: once the Source and RawContent rows are persisted, a failing
analysis invocation does not roll anything back — the run performs no
delete operation — and the caller still receives the 200 result
carrying the raw-content id, the source id and analysis_status
"failed". -/
theorem submission_preserved_on_analysis_failure (req : UReq) (env : UEnv)
    (t : String) (meta : SMeta) (uid sid rid : String)
    (hm : req.method = "POST") (hb : req.bodyValid = true)
    (ht : req.text_content = some t) (ht' : ¬ t = "")
    (hmeta : req.source_metadata = some meta)
    (huid : truthyOpt meta.user_id = some uid)
    (hs : env.sourceInsert = .ok sid) (hrw : env.rawInsert = .ok rid)
    (hfail : env.invokeOutcome ≠ .succeeded) :
    (uploadData req env).1 =
      ⟨200, .ok "Data uploaded and analysis function invoked" rid sid "failed"
        ⟨env.elapsedMs, invokeErrorString env.invokeOutcome⟩⟩
    ∧ UEvent.insertSource (sourceRowOf uid meta) ∈ (uploadData req env).2
    ∧ UEvent.insertRaw ⟨sid, uid, t⟩ ∈ (uploadData req env).2
    ∧ ∀ ev ∈ (uploadData req env).2, isDeleteEvent ev = false := by
  have hne : ¬ (t = "" ∨ truthyOpt meta.user_id = none) := by
    rintro (h | h)
    · exact ht' h
    · rw [huid] at h; cases h
  have hgd : (truthyOpt meta.user_id).getD "" = uid := by rw [huid]; rfl
  have heval : uploadData req env =
      (⟨200, .ok "Data uploaded and analysis function invoked" rid sid "failed"
          ⟨env.elapsedMs, invokeErrorString env.invokeOutcome⟩⟩,
       [UEvent.insertSource (sourceRowOf uid meta),
        UEvent.insertRaw ⟨sid, uid, t⟩,
        UEvent.invokeAnalysis rid (some uid) req.user_ai_key]) := by
    cases hio : env.invokeOutcome with
    | succeeded => exact absurd hio hfail
    | errored r =>
        simp [uploadData, hm, hb, ht, hmeta, hne, hs, hrw, hgd, hio, invokeErrorString]
    | threw mm =>
        simp [uploadData, hm, hb, ht, hmeta, hne, hs, hrw, hgd, hio, invokeErrorString]
  rw [heval]
  refine ⟨rfl, by simp, by simp, ?_⟩
  intro ev hev
  simp only [List.mem_cons, List.not_mem_nil, or_false] at hev
  rcases hev with rfl | rfl | rfl <;> rfl

/-- Witness for C5 at a concrete run: inserts succeed, the invocation
errors, and the caller still receives the ids with status "failed", by
instantiating the theorem. -/
theorem submission_preserved_on_analysis_failure_witness :
    (uploadData reqU5 envU5).1 =
      ⟨200, .ok "Data uploaded and analysis function invoked" "R1" "S1" "failed"
        ⟨42, some "FunctionsHttpError"⟩⟩ :=
  (submission_preserved_on_analysis_failure reqU5 envU5 "hello"
      ⟨some "U1", none, none⟩ "U1" "S1" "R1" rfl rfl rfl (by decide) rfl
      (by decide) rfl rfl (by decide)).1

theorem nodeMapOf_congr {ar : ExtractionResult} {envA envB : StorageEnv}
    (h : envA.nodesResult = envB.nodesResult) :
    nodeMapOf ar envA = nodeMapOf ar envB := by
  unfold nodeMapOf
  rw [h]

theorem quoteMapOf_congr {ar : ExtractionResult} {envA envB : StorageEnv}
    (h : envA.quotesResult = envB.quotesResult) :
    quoteMapOf ar envA = quoteMapOf ar envB := by
  unfold quoteMapOf
  rw [h]

/-- C6 counterexample: two runs that differ only in the quotes-insert
outcome (success versus a constraint violation) produce the identical
success response — the handler's result value carries no per-entity-kind
status, so the caller cannot see which phases succeeded. -/
theorem response_identical_despite_quote_phase_failure :
    (processAnalysis reqWithKey envC6ok).1 = (processAnalysis reqWithKey envC6bad).1
    ∧ envC6ok.storage.quotesResult ≠ envC6bad.storage.quotesResult
    ∧ (processAnalysis reqWithKey envC6bad).1.status = 200 := by
  refine ⟨by decide, by decide, by decide⟩

/-- C6 (amended): the four insert phases run independently — the rows
submitted by the quotes and nodes phases do not depend on any storage
outcome, the edge phase depends only on the node-insert result and the
link phase only on the quote- and node-insert results (a failed earlier
phase empties rather than aborts them); a phase failure is recorded on
the per-phase console log and later phases are still attempted; but the
handler's response carries no per-entity-kind status — it is the same
generic success response whatever the storage outcomes. -/
theorem insert_phases_attempted_independently :
    (∀ (uid rid : String) (ar : ExtractionResult) (envA envB : StorageEnv),
       (materialize uid rid ar envA).quotePhase = (materialize uid rid ar envB).quotePhase
       ∧ (materialize uid rid ar envA).nodePhase = (materialize uid rid ar envB).nodePhase)
    ∧ (∀ (uid rid : String) (ar : ExtractionResult) (envA envB : StorageEnv),
       envA.nodesResult = envB.nodesResult →
       (materialize uid rid ar envA).edgePhase = (materialize uid rid ar envB).edgePhase)
    ∧ (∀ (uid rid : String) (ar : ExtractionResult) (envA envB : StorageEnv),
       envA.nodesResult = envB.nodesResult → envA.quotesResult = envB.quotesResult →
       (materialize uid rid ar envA).linkPhase = (materialize uid rid ar envB).linkPhase)
    ∧ (∀ (uid rid : String) (ar : ExtractionResult) (env : StorageEnv)
         (m : String) (qs : List QuoteEntry) (ns : List NodeEntry),
       ar.quotes = .list qs → env.quotesResult = .error m → ar.nodes = .list ns →
       AEvent.consoleError "Error inserting quotes:" m ∈ matEvents uid rid ar env
       ∧ AEvent.insertNodes (nodesToInsert uid ns) ∈ matEvents uid rid ar env)
    ∧ (∀ (req : AReq) (env : AEnv) (content : String)
         (kp : String × String) (raw : String) (ar : ExtractionResult),
       req.method = "POST" → req.bodyValid = true →
       jsTruthy req.raw_data_id = true → jsTruthy req.user_id = true →
       env.fetchRaw = .ok content →
       selectedApiKey req.user_ai_key env.openrouterApiKey env.geminiApiKey = .ok kp →
       env.llmOutcome = .ok (some raw) → env.parseResult = .ok ar →
       (processAnalysis req env).1 =
         ⟨200, .success "Analysis completed and results saved." (req.raw_data_id.getD "")⟩) := by
  refine ⟨?_, ?_, ?_, ?_, ?_⟩
  · intro uid rid ar envA envB
    exact ⟨rfl, rfl⟩
  · intro uid rid ar envA envB h
    simp only [materialize]
    rw [nodeMapOf_congr h]
  · intro uid rid ar envA envB hn hq
    simp only [materialize]
    rw [nodeMapOf_congr hn, quoteMapOf_congr hq]
  · intro uid rid ar env m qs ns hq herr hn
    unfold matEvents
    refine ⟨?_, ?_⟩
    · simp [hq, herr, List.mem_append]
    · simp [hn, List.mem_append]
  · intro req env content kp raw ar hm hb hr hu hf hsel hllm hpr
    simp [processAnalysis, hm, hb, hr, hu, hf, hsel, hllm, hpr]

/-- Witness for C6: at a concrete run the edge phase is unaffected by a
quotes-insert failure, the failure is recorded on the console, and the
nodes phase is still attempted, by instantiating the theorem. -/
theorem insert_phases_attempted_independently_witness :
    (materialize "U1" "RD1" arC6 envC6bad.storage).edgePhase =
      (materialize "U1" "RD1" arC6 envC6ok.storage).edgePhase
    ∧ AEvent.consoleError "Error inserting quotes:"
        "duplicate key value violates unique constraint" ∈
        matEvents "U1" "RD1" arC6 envC6bad.storage
    ∧ AEvent.insertNodes (nodesToInsert "U1" [⟨some "1", "pain", "L", ""⟩]) ∈
        matEvents "U1" "RD1" arC6 envC6bad.storage := by
  have h4 := insert_phases_attempted_independently.2.2.2.1 "U1" "RD1" arC6
    envC6bad.storage "duplicate key value violates unique constraint"
    [⟨some "1", "t", none, none⟩] [⟨some "1", "pain", "L", ""⟩] rfl rfl rfl
  exact ⟨insert_phases_attempted_independently.2.1 "U1" "RD1" arC6
    envC6bad.storage envC6ok.storage rfl, h4.1, h4.2⟩

/-- C8 counterexample: a well-formed LLM response whose `nodes` field is
present but not a sequence is accepted silently — the run returns the
generic success response, inserts no node rows, and raises no error. -/
theorem nonlist_nodes_silently_accepted :
    (processAnalysis reqWithKey envC8).1 =
      ⟨200, .success "Analysis completed and results saved." "RD1"⟩
    ∧ arC8.nodes = JField.notList
    ∧ ∀ rows, AEvent.insertNodes rows ∉ (processAnalysis reqWithKey envC8).2 := by
  refine ⟨by decide, rfl, ?_⟩
  have htrace : (processAnalysis reqWithKey envC8).2 =
      [AEvent.llmCall "sk-user-key" "user" "gpt-4o-mini",
       AEvent.insertQuotes [], AEvent.updateProcessedAt "RD1"] := by decide
  intro rows h
  rw [htrace] at h
  simp at h

/-- C8 (amended): the handler fails (with the parse-failure error) when
the raw LLM response is not well-formed JSON; but a well-formed response
whose required field is present with the wrong shape (e.g. `nodes` not a
sequence) is silently accepted — the corresponding phase is skipped and
the run reports success. -/
theorem parser_failure_and_shape_skip (req : AReq) (env : AEnv)
    (hm : req.method = "POST") (hb : req.bodyValid = true)
    (hr : jsTruthy req.raw_data_id = true) (hu : jsTruthy req.user_id = true)
    (content : String) (hf : env.fetchRaw = .ok content)
    (kp : String × String)
    (hsel : selectedApiKey req.user_ai_key env.openrouterApiKey env.geminiApiKey = .ok kp) :
    (∀ raw m, env.llmOutcome = .ok (some raw) → env.parseResult = .error m →
       (processAnalysis req env).1 =
         ⟨500, .errorMsg ("Analysis failed: Failed to parse LLM JSON response: " ++ m)⟩)
    ∧ (∀ raw ar, env.llmOutcome = .ok (some raw) → env.parseResult = .ok ar →
       ar.nodes = .notList →
       (processAnalysis req env).1.status = 200
       ∧ (materialize (req.user_id.getD "") (req.raw_data_id.getD "") ar env.storage).nodePhase = none) := by
  refine ⟨?_, ?_⟩
  · intro raw m hllm hpr
    simp [processAnalysis, hm, hb, hr, hu, hf, hsel, hllm, hpr]
  · intro raw ar hllm hpr hn
    refine ⟨?_, ?_⟩
    · simp [processAnalysis, hm, hb, hr, hu, hf, hsel, hllm, hpr]
    · simp [materialize, hn]

/-- Witness for C8: at the concrete malformed-nodes run the status is
200 and the node phase is skipped, by instantiating the theorem. -/
theorem parser_failure_and_shape_skip_witness :
    (processAnalysis reqWithKey envC8).1.status = 200
    ∧ (materialize "U1" "RD1" arC8 envC8.storage).nodePhase = none :=
  (parser_failure_and_shape_skip reqWithKey envC8 rfl rfl (by decide) (by decide)
      "text" rfl ("sk-user-key", "user") (by decide)).2 "j" arC8 rfl rfl rfl

theorem quotePhase_some_eq (uid rid : String) (ar : ExtractionResult)
    (env : StorageEnv) (rows : List QuoteRow)
    (h : (materialize uid rid ar env).quotePhase = some rows) :
    ∃ qs, ar.quotes = .list qs ∧ rows = quotesToInsert rid uid qs := by
  cases hq : ar.quotes with
  | list qs =>
    refine ⟨qs, rfl, ?_⟩
    simp [materialize, hq] at h
    exact h.symm
  | absent => simp [materialize, hq] at h
  | notList => simp [materialize, hq] at h

theorem nodePhase_some_eq (uid rid : String) (ar : ExtractionResult)
    (env : StorageEnv) (rows : List NodeRow)
    (h : (materialize uid rid ar env).nodePhase = some rows) :
    ∃ ns, ar.nodes = .list ns ∧ rows = nodesToInsert uid ns := by
  cases hn : ar.nodes with
  | list ns =>
    refine ⟨ns, rfl, ?_⟩
    simp [materialize, hn] at h
    exact h.symm
  | absent => simp [materialize, hn] at h
  | notList => simp [materialize, hn] at h

theorem edgePhase_some_eq (uid rid : String) (ar : ExtractionResult)
    (env : StorageEnv) (rows : List EdgeRow)
    (h : (materialize uid rid ar env).edgePhase = some rows) :
    ∃ es, ar.edges = .list es ∧
      rows = edgesToInsert uid (nodeMapOf ar env) es := by
  cases he : ar.edges with
  | list es =>
    refine ⟨es, rfl, ?_⟩
    simp [materialize, he] at h
    exact h.symm
  | absent => simp [materialize, he] at h
  | notList => simp [materialize, he] at h

theorem linkPhase_some_eq (uid rid : String) (ar : ExtractionResult)
    (env : StorageEnv) (rows : List LinkRow)
    (h : (materialize uid rid ar env).linkPhase = some rows) :
    ∃ ls, ar.quote_node_links = .list ls ∧
      rows = linksToInsert uid (quoteMapOf ar env) (nodeMapOf ar env) ls := by
  cases hl : ar.quote_node_links with
  | list ls =>
    refine ⟨ls, rfl, ?_⟩
    simp [materialize, hl] at h
    exact h.symm
  | absent => simp [materialize, hl] at h
  | notList => simp [materialize, hl] at h

/-- C9 counterexample: a concrete run materializes a QuoteNodeLink row,
and the stored row — the insert payload plus the schema defaults for the
omitted columns — carries `is_suggestion = false`, not `true`: the link
insert payload never sets the flag. -/
theorem link_row_stored_without_suggestion_flag :
    (materialize "U1" "RD1" arC9 stC9).linkPhase =
      some [⟨"Q1", "N1", "supports", "U1"⟩]
    ∧ (storedLink ⟨"Q1", "N1", "supports", "U1"⟩).is_suggestion = false := by
  refine ⟨by decide, rfl⟩

/-- C9 (amended): every Quote, Node and Edge row the pipeline creates is
written with `is_suggestion = true`; QuoteNodeLink rows are inserted
without the flag and take the schema default `false`; no created row
sets `reviewed_at`/`reviewed_by` — that is left to the separate review
workflow. -/
theorem suggestion_flags_on_created_rows (uid rid : String)
    (ar : ExtractionResult) (env : StorageEnv) :
    (∀ rows, (materialize uid rid ar env).quotePhase = some rows →
       ∀ r ∈ rows, r.is_suggestion = true)
    ∧ (∀ rows, (materialize uid rid ar env).nodePhase = some rows →
       ∀ r ∈ rows, r.is_suggestion = true)
    ∧ (∀ rows, (materialize uid rid ar env).edgePhase = some rows →
       ∀ r ∈ rows, r.is_suggestion = true)
    ∧ (∀ rows, (materialize uid rid ar env).linkPhase = some rows →
       ∀ r ∈ rows, (storedLink r).is_suggestion = false
         ∧ (storedLink r).reviewed_at = none
         ∧ (storedLink r).reviewed_by = none) := by
  refine ⟨?_, ?_, ?_, ?_⟩
  · intro rows hrows r hr
    rcases quotePhase_some_eq uid rid ar env rows hrows with ⟨qs, _, rfl⟩
    unfold quotesToInsert at hr
    rcases List.mem_map.mp hr with ⟨q, _, rfl⟩
    rfl
  · intro rows hrows r hr
    rcases nodePhase_some_eq uid rid ar env rows hrows with ⟨ns, _, rfl⟩
    unfold nodesToInsert at hr
    rcases List.mem_map.mp hr with ⟨n, _, rfl⟩
    rfl
  · intro rows hrows r hr
    rcases edgePhase_some_eq uid rid ar env rows hrows with ⟨es, _, rfl⟩
    rcases (edgesToInsert_mem_iff uid (nodeMapOf ar env) es r).mp hr with
      ⟨e, _, f, t, _, _, rfl⟩
    rfl
  · intro rows _ r _
    exact ⟨rfl, rfl, rfl⟩

/-- Witness for C9: the concrete run's quote row carries the suggestion
flag while its stored link row does not, by instantiating the theorem. -/
theorem suggestion_flags_on_created_rows_witness :
    (⟨"RD1", "U1", "great", none, none, true⟩ : QuoteRow).is_suggestion = true
    ∧ (storedLink ⟨"Q1", "N1", "supports", "U1"⟩).is_suggestion = false := by
  refine ⟨?_, ?_⟩
  · exact (suggestion_flags_on_created_rows "U1" "RD1" arC9 stC9).1
      [⟨"RD1", "U1", "great", none, none, true⟩] (by decide) _ (by decide)
  · exact ((suggestion_flags_on_created_rows "U1" "RD1" arC9 stC9).2.2.2
      [⟨"Q1", "N1", "supports", "U1"⟩] (by decide) _ (by decide)).1

/-- C10 counterexample: the draft upload handler, given a request whose
`source_metadata` carries no owner, inserts the Source and RawContent
rows with the substituted placeholder owner — contradicting "never
substitutes a different owner value when the caller's owner is absent". -/
theorem draft_upload_substitutes_placeholder_owner :
    (uploadDataV2 reqC10 envUok).2 =
      [UEvent.insertSource
         ⟨"00000000-0000-0000-0000-000000000000", "manual", none,
          some ⟨none, none, none⟩⟩,
       UEvent.insertRaw
         ⟨"S1", "00000000-0000-0000-0000-000000000000", "hello world"⟩,
       UEvent.invokeAnalysis "R1" none none]
    ∧ reqC10.source_metadata.bind (fun mm => mm.user_id) = none := by
  refine ⟨by decide, rfl⟩

/-- C10 (amended): the authenticated route forwards the session identity
as the owner; every row the materializer creates carries the request's
owner (and quote rows the request's raw-content id); the validated
upload handler writes exactly the caller's validated owner; but the
draft upload handler substitutes the zero-UUID placeholder owner for
the Source and RawContent rows when the caller's owner is absent. -/
theorem owner_propagation :
    (∀ (sid : String) (b : Option RouteBody) (fwd : RouteForward),
       routePOST (some sid) b = .ok fwd →
       fwd.source_metadata.user_id = some sid)
    ∧ (∀ (uid rid : String) (ar : ExtractionResult) (env : StorageEnv),
       (∀ rows, (materialize uid rid ar env).quotePhase = some rows →
          ∀ r ∈ rows, r.user_id = uid ∧ r.raw_data_id = rid)
       ∧ (∀ rows, (materialize uid rid ar env).nodePhase = some rows →
          ∀ r ∈ rows, r.user_id = uid)
       ∧ (∀ rows, (materialize uid rid ar env).edgePhase = some rows →
          ∀ r ∈ rows, r.user_id = uid)
       ∧ (∀ rows, (materialize uid rid ar env).linkPhase = some rows →
          ∀ r ∈ rows, r.user_id = uid))
    ∧ (∀ (m : String) (bv : Bool) (tc : Option String) (sm : Option SMeta)
         (uak : Option String) (env : UEnv) (row : SourceRow),
       UEvent.insertSource row ∈ (uploadData ⟨m, bv, tc, sm, uak⟩ env).2 →
       row.user_id = (truthyOpt (sm.bind (fun mm => mm.user_id))).getD "")
    ∧ (∀ (m : String) (bv : Bool) (tc : Option String) (sm : Option SMeta)
         (uak : Option String) (env : UEnv) (row : SourceRow),
       UEvent.insertSource row ∈ (uploadDataV2 ⟨m, bv, tc, sm, uak⟩ env).2 →
       row.user_id = v2Owner ⟨m, bv, tc, sm, uak⟩)
    ∧ (∀ req : UReq,
       truthyOpt (req.source_metadata.bind (fun mm => mm.user_id)) = none →
       v2Owner req = placeholderOwner) := by
  refine ⟨?_, ?_, ?_, ?_, ?_⟩
  · intro sid b fwd h
    rcases b with _ | bb
    · simp [routePOST] at h
    · cases htc : truthyOpt bb.text_content with
      | none => simp [routePOST, htc] at h
      | some t =>
        dsimp only [routePOST] at h
        rw [htc] at h
        cases h
        rfl
  · intro uid rid ar env
    refine ⟨?_, ?_, ?_, ?_⟩
    · intro rows hrows r hr
      rcases quotePhase_some_eq uid rid ar env rows hrows with ⟨qs, _, rfl⟩
      unfold quotesToInsert at hr
      rcases List.mem_map.mp hr with ⟨q, _, rfl⟩
      exact ⟨rfl, rfl⟩
    · intro rows hrows r hr
      rcases nodePhase_some_eq uid rid ar env rows hrows with ⟨ns, _, rfl⟩
      unfold nodesToInsert at hr
      rcases List.mem_map.mp hr with ⟨n, _, rfl⟩
      rfl
    · intro rows hrows r hr
      rcases edgePhase_some_eq uid rid ar env rows hrows with ⟨es, _, rfl⟩
      rcases (edgesToInsert_mem_iff uid (nodeMapOf ar env) es r).mp hr with
        ⟨e, _, f, t, _, _, rfl⟩
      rfl
    · intro rows hrows r hr
      rcases linkPhase_some_eq uid rid ar env rows hrows with ⟨ls, _, rfl⟩
      rcases (linksToInsert_mem_iff uid (quoteMapOf ar env) (nodeMapOf ar env) ls r).mp hr with
        ⟨l, _, q, n, _, _, rfl⟩
      rfl
  · intro m bv tc sm uak env row hmem
    unfold uploadData at hmem
    dsimp only at hmem
    repeat' split at hmem
    all_goals simp_all [sourceRowOf]
  · intro m bv tc sm uak env row hmem
    unfold uploadDataV2 at hmem
    dsimp only at hmem
    repeat' split at hmem
    all_goals simp_all [sourceRowV2]
  · intro req h
    unfold v2Owner
    rw [h]
    rfl

/-- Witness for C10: the route forwards the session identity, a
materialized quote row carries the request's owner, and the draft
handler's owner for an owner-less request is the placeholder, all by
instantiating the theorem. -/
theorem owner_propagation_witness :
    (⟨"hi", ⟨some "U1", some "manual", none⟩, none⟩ : RouteForward).source_metadata.user_id = some "U1"
    ∧ (⟨"RD1", "U1", "great", none, none, true⟩ : QuoteRow).user_id = "U1"
    ∧ v2Owner reqC10 = placeholderOwner := by
  refine ⟨?_, ?_, ?_⟩
  · exact owner_propagation.1 "U1" (some ⟨some "hi", none, none, none⟩)
      ⟨"hi", ⟨some "U1", some "manual", none⟩, none⟩ (by decide)
  · exact ((owner_propagation.2.1 "U1" "RD1" arC9 stC9).1
      [⟨"RD1", "U1", "great", none, none, true⟩] (by decide) _ (by decide)).1
  · exact owner_propagation.2.2.2.2 reqC10 rfl

end Clientelle
